import Mathlib

/-!
Shallow embedding of `src/dump.rs` (LampardNguyen234/rust-web3-utils):
a benchmarking script that prepares a batch of `n` self-transfer
transactions with pre-assigned nonces `starting_nonce + i` and then
submits them all concurrently via `futures::future::join_all`.

Modelling conventions:
* `u64` and `U256` machine integers are modelled as `Nat`; where the Rust
  code can overflow (`starting_nonce + i` on `u64`, `default_gas_price * 3`
  on `U256`) the embedding reduces modulo `2^64` / `2^256`, and theorems
  about exact values carry an explicit no-overflow hypothesis.
* network effects are made explicit: the `ChainClient`
  (an external capability: `SignerMiddleware<Provider<Http>, LocalWallet>`)
  is a record holding the signer address and a response function for
  submissions, and every function that can perform RPC calls also returns
  the list of `RpcCall`s it issued, so that "exactly one submission call
  per item" and "no network calls" are statable properties.
* `futures::future::join_all` returns the results in the order of the
  input futures, so the fan-out/fan-in dispatch is embedded as a
  structural traversal of the prepared list that applies the client's
  response to each item and collects the `(i, nonce, result)` triples in
  input order.
-/

namespace Web3Dump

/-- `u64` wraps at `2^64`. -/
def U64MOD : Nat := 2 ^ 64

/-- `U256` values live below `2^256`. -/
def U256MOD : Nat := 2 ^ 256

/-- Embedding of `ethers::types::transaction::eip2718::TypedTransaction`,
restricted to the fields the script touches.  `TypedTransaction::default()`
leaves every field unset (`none`); the setters fill them in. -/
structure TypedTransaction where
  toAddress : Option Nat
  value : Option Nat
  nonce : Option Nat
  gas : Option Nat
  gasPrice : Option Nat
  deriving DecidableEq, Repr

/-- `TypedTransaction::default()`: all fields unset. -/
def TypedTransaction.default : TypedTransaction :=
  { toAddress := none, value := none, nonce := none, gas := none, gasPrice := none }

/-- Modelled from the spec: the failure modes of the external ChainClient
capability (`submit` fails with NonceRejected, TransportError or
SignerError).  The Rust code propagates the client's error opaquely as
`anyhow::Error`; the concrete error space belongs to the excluded
`ethers` middleware, so it is taken from the spec's interface section. -/
inductive SubmissionError where
  | NonceRejected
  | TransportError
  | SignerError
  deriving DecidableEq, Repr

/-- A per-item intent-construction failure (`anyhow::Error` in the source,
carried opaquely; only its display text is ever used). -/
structure BuildError where
  msg : String
  deriving DecidableEq, Repr

/-- Rust's `Result<A, E>` as used by the script. -/
inductive RsResult (E A : Type) where
  | ok (a : A)
  | err (e : E)
  deriving DecidableEq, Repr

/-- The RPC calls the two core phases could issue.  The script's own phases
only ever issue `submit` (`client.send_transaction`); the other
constructors exist so that "no confirmation / receipt / re-query calls"
is a non-vacuous statement about the traces. -/
inductive RpcCall where
  | submit (tx : TypedTransaction)
  | getTransactionCount
  | getGasPrice
  | getChainId
  | getTransactionReceipt
  deriving DecidableEq, Repr

/-- The shared `Arc<SignerMiddleware<Provider<Http>, LocalWallet>>`:
the signer's address plus the node's (arbitrary) response to a submitted
transaction, yielding either a transaction hash (modelled as `Nat`) or a
`SubmissionError`. -/
structure ChainClient where
  address : Nat
  respond : TypedTransaction → RsResult SubmissionError Nat

/-- Embedding of `create_transaction` (dump.rs lines 13–33).  It reads the
signer's address locally (`client.address()` performs no RPC), builds a
default transaction and sets recipient = own address, value = 0, the
supplied nonce, gas = 21000 and the supplied gas price, and returns `Ok`.
The second component is the list of RPC calls it performs: none. -/
def create_transaction (client : ChainClient) (nonce : Nat) (gas_price : Nat) :
    RsResult BuildError TypedTransaction × List RpcCall :=
  let address := client.address
  let tx := TypedTransaction.default
  let tx := { tx with toAddress := some address }
  let tx := { tx with value := some 0 }
  let tx := { tx with nonce := some nonce }
  let tx := { tx with gas := some 21000 }
  let tx := { tx with gasPrice := some gas_price }
  (.ok tx, [])

/-- Embedding of `send_transaction` (dump.rs lines 36–52): one call to
`client.send_transaction(tx, None)` (all fee/nonce fields are pre-filled,
so the signer middleware issues a single submission RPC); the returned
hash is read locally from the pending-transaction handle, with no
confirmation or receipt call.  Second component: the RPC trace, exactly
one `submit`. -/
def send_transaction (client : ChainClient) (tx : TypedTransaction) :
    RsResult SubmissionError Nat × List RpcCall :=
  (client.respond tx, [RpcCall.submit tx])

/-- Result of the preparation loop: the successfully built
`(i, nonce, tx)` triples pushed onto `prepared_txs` in index order, the
per-item build failures that were reported (`Failed to prepare TX ...`)
with the index and nonce they were attempted at, and the RPC calls made
during preparation. -/
structure PreparedBatch where
  items : List (Nat × Nat × TypedTransaction)
  failures : List (Nat × Nat × BuildError)
  calls : List RpcCall
  deriving DecidableEq, Repr

/-- The preparation loop of `main` (dump.rs lines 101–113) over the still
remaining iteration count, starting at index `i`: for each index the nonce
is `starting_nonce + i` (u64 addition), the builder is invoked, an `Ok`
intent is pushed and an `Err` is recorded and skipped — the loop continues
either way and never reuses the skipped nonce.  The builder is abstracted
as `build : nonce ↦ result` so that the loop's handling of build failures
is statable; the script instantiates it with `create_transaction`. -/
def prepareFrom (build : Nat → RsResult BuildError TypedTransaction × List RpcCall)
    (starting_nonce : Nat) : Nat → Nat → PreparedBatch
  | _, 0 => { items := [], failures := [], calls := [] }
  | i, k + 1 =>
    let nonce := (starting_nonce + i) % U64MOD
    let built := build nonce
    let rest := prepareFrom build starting_nonce (i + 1) k
    match built.1 with
    | .ok tx =>
        { items := (i, nonce, tx) :: rest.items,
          failures := rest.failures,
          calls := built.2 ++ rest.calls }
    | .err e =>
        { items := rest.items,
          failures := (i, nonce, e) :: rest.failures,
          calls := built.2 ++ rest.calls }

/-- The whole preparation phase: `for i in 0..num_transactions`. -/
def prepareLoop (build : Nat → RsResult BuildError TypedTransaction × List RpcCall)
    (starting_nonce num_transactions : Nat) : PreparedBatch :=
  prepareFrom build starting_nonce 0 num_transactions

/-- Result of the dispatch phase: the `(i, nonce, result)` triples returned
by `join_all` (in the order of the futures, i.e. of the prepared items) and
the RPC calls issued while the futures ran. -/
structure DispatchResult where
  outcomes : List (Nat × Nat × RsResult SubmissionError Nat)
  calls : List RpcCall
  deriving Repr

/-- The dispatch phase of `main` (dump.rs lines 125–137): one future per
prepared item, each calling `send_transaction` exactly once and pairing
the result with the item's `(i, nonce)`; `join_all` returns the results
in the order the futures were created. -/
def dispatchBatch (client : ChainClient) :
    List (Nat × Nat × TypedTransaction) → DispatchResult
  | [] => { outcomes := [], calls := [] }
  | (i, nonce, tx) :: rest =>
    let sent := send_transaction client tx
    let rest' := dispatchBatch client rest
    { outcomes := (i, nonce, sent.1) :: rest'.outcomes,
      calls := sent.2 ++ rest'.calls }

/-- The result-processing loop of `main` (dump.rs lines 140–150):
the hashes of the successful submissions, pushed in outcome order
(`sent_txs`). -/
def sentTxs (outcomes : List (Nat × Nat × RsResult SubmissionError Nat)) : List Nat :=
  outcomes.filterMap fun o =>
    match o.2.2 with
    | .ok hash => some hash
    | .err _ => none

/-- The core pipeline of `main` after the three start-up queries have
observed `starting_nonce` and `default_gas_price`: freeze the batch gas
price at `default_gas_price * 3` (U256 multiplication, dump.rs line 82),
prepare all intents sequentially with `create_transaction`, then dispatch
them all.  Returns the prepared batch and the dispatch result. -/
def runBatch (client : ChainClient)
    (starting_nonce default_gas_price num_transactions : Nat) :
    PreparedBatch × DispatchResult :=
  let gas_price := (default_gas_price * 3) % U256MOD
  let prepared := prepareLoop (fun nonce => create_transaction client nonce gas_price)
    starting_nonce num_transactions
  (prepared, dispatchBatch client prepared.items)

/-- The fully populated intent `create_transaction` builds: recipient is the
signer's own address, value 0, the supplied nonce, gas limit 21000, the
supplied gas price. -/
def builtTx (address nonce gas_price : Nat) : TypedTransaction :=
  { toAddress := some address, value := some 0, nonce := some nonce,
    gas := some 21000, gasPrice := some gas_price }

/-! ### Concrete instances used by scenario statements and witnesses -/

/-- A concrete client for the spec's failure scenario: the node rejects
the submission carrying nonce 6 with `NonceRejected` and accepts every
other intent with a hash derived from its nonce. -/
def scClient : ChainClient :=
  { address := 1,
    respond := fun tx =>
      match tx.nonce with
      | some nc => if nc = 6 then .err .NonceRejected else .ok (1000 + nc)
      | none => .err .TransportError }

/-- A concrete builder that fails exactly at nonce 6, exercising the
build-failure branch of the preparation loop. -/
def witBuild : Nat → RsResult BuildError TypedTransaction × List RpcCall :=
  fun nonce =>
    if nonce = 6 then (.err { msg := "boom" }, []) else (.ok (builtTx 1 nonce 90), [])

/-- A concrete client whose submissions always succeed. -/
def okClient : ChainClient :=
  { address := 3, respond := fun tx => .ok (match tx.nonce with | some nc => nc | none => 0) }

/-- A second concrete client sharing `okClient`'s address but with a
different network behaviour (used to show preparation depends only on the
observed inputs). -/
def okClientB : ChainClient :=
  { address := 3, respond := fun _ => .err .TransportError }

/-! ### Helper lemmas about the preparation loop -/

/-- One unfolding step of the preparation loop. -/
theorem prepareFrom_succ
    (build : Nat → RsResult BuildError TypedTransaction × List RpcCall)
    (s i k : Nat) :
    prepareFrom build s i (k + 1) =
      match (build ((s + i) % U64MOD)).1 with
      | .ok tx =>
          { items := (i, (s + i) % U64MOD, tx) :: (prepareFrom build s (i + 1) k).items,
            failures := (prepareFrom build s (i + 1) k).failures,
            calls := (build ((s + i) % U64MOD)).2 ++ (prepareFrom build s (i + 1) k).calls }
      | .err e =>
          { items := (prepareFrom build s (i + 1) k).items,
            failures := (i, (s + i) % U64MOD, e) :: (prepareFrom build s (i + 1) k).failures,
            calls := (build ((s + i) % U64MOD)).2 ++ (prepareFrom build s (i + 1) k).calls } :=
  rfl

/-- Every item the loop keeps carries its own index `j` in the iteration
range and the pre-assigned nonce `(s + j) % 2^64`, produced by an `Ok` of
the builder at that nonce — independently of what the builder does at any
other index. -/
theorem mem_prepareFrom_items
    (build : Nat → RsResult BuildError TypedTransaction × List RpcCall) (s : Nat) :
    ∀ (k i j nc : Nat) (tx : TypedTransaction),
      (j, nc, tx) ∈ (prepareFrom build s i k).items →
      i ≤ j ∧ j < i + k ∧ nc = (s + j) % U64MOD ∧ (build nc).1 = .ok tx := by
  intro k
  induction k with
  | zero => intro i j nc tx h; simp [prepareFrom] at h
  | succ k ih =>
    intro i j nc tx h
    rw [prepareFrom_succ] at h
    cases hb : (build ((s + i) % U64MOD)).1 with
    | ok tx' =>
      rw [hb] at h
      dsimp only at h
      rcases List.mem_cons.mp h with h' | h'
      · simp only [Prod.mk.injEq] at h'
        obtain ⟨rfl, rfl, rfl⟩ := h'
        exact ⟨le_refl _, by omega, rfl, hb⟩
      · obtain ⟨h1, h2, h3, h4⟩ := ih (i + 1) j nc tx h'
        exact ⟨by omega, by omega, h3, h4⟩
    | err e =>
      rw [hb] at h
      dsimp only at h
      obtain ⟨h1, h2, h3, h4⟩ := ih (i + 1) j nc tx h
      exact ⟨by omega, by omega, h3, h4⟩

/-- The `(index, nonce)` pairs of the kept items form a subsequence of the
full pre-assigned schedule `[(i, s+i), …, (i+k-1, s+i+k-1)]` (mod `2^64`):
failed builds drop their slot, they never shift or reuse a nonce. -/
theorem prepareFrom_pairs_sublist
    (build : Nat → RsResult BuildError TypedTransaction × List RpcCall) (s : Nat) :
    ∀ (k i : Nat),
      List.Sublist ((prepareFrom build s i k).items.map fun p => (p.1, p.2.1))
        ((List.range' i k).map fun j => (j, (s + j) % U64MOD)) := by
  intro k
  induction k with
  | zero => intro i; simp [prepareFrom]
  | succ k ih =>
    intro i
    rw [List.range'_succ, List.map_cons, prepareFrom_succ]
    cases hb : (build ((s + i) % U64MOD)).1 with
    | ok tx => exact List.Sublist.cons₂ _ (ih (i + 1))
    | err e => exact List.Sublist.cons _ (ih (i + 1))

/-- Closed form of the preparation loop when the builder is the script's
`create_transaction`: every build succeeds, so the loop keeps all `k`
items in index order, records no failure, and performs no RPC call. -/
theorem prepareFrom_create (client : ChainClient) (gp s : Nat) :
    ∀ (k i : Nat),
      prepareFrom (fun nonce => create_transaction client nonce gp) s i k =
        { items := (List.range' i k).map fun j =>
            (j, (s + j) % U64MOD, builtTx client.address ((s + j) % U64MOD) gp),
          failures := [], calls := [] } := by
  intro k
  induction k with
  | zero => intro i; simp [prepareFrom]
  | succ k ih =>
    intro i
    have hstep : prepareFrom (fun nonce => create_transaction client nonce gp) s i (k + 1) =
        { items := (i, (s + i) % U64MOD, builtTx client.address ((s + i) % U64MOD) gp) ::
            (prepareFrom (fun nonce => create_transaction client nonce gp) s (i + 1) k).items,
          failures :=
            (prepareFrom (fun nonce => create_transaction client nonce gp) s (i + 1) k).failures,
          calls :=
            [] ++ (prepareFrom (fun nonce => create_transaction client nonce gp) s (i + 1) k).calls } :=
      rfl
    rw [hstep, ih (i + 1), List.range'_succ, List.map_cons]
    rfl

/-! ### Helper lemmas about the dispatch phase -/

/-- Closed form of the dispatch phase: `join_all` yields, in the order of
the prepared items, each item's `(i, nonce)` paired with the client's
response to its intent, and the RPC trace is exactly one `submit` per
item. -/
theorem dispatchBatch_eq (client : ChainClient) :
    ∀ prepared : List (Nat × Nat × TypedTransaction),
      dispatchBatch client prepared =
        { outcomes := prepared.map fun p => (p.1, p.2.1, client.respond p.2.2),
          calls := prepared.map fun p => RpcCall.submit p.2.2 } := by
  intro prepared
  induction prepared with
  | nil => rfl
  | cons hd tl ih =>
    obtain ⟨i, nonce, tx⟩ := hd
    simp only [dispatchBatch, send_transaction, ih, List.map_cons]
    rfl

/-! ### Claim theorems -/

/-- C3: for every input `(recipient, nonce, gasPrice)` the builder returns
`Ok` (it never fails) with an intent whose value is 0, whose gas limit is
exactly 21000, whose recipient is the signer's own address, and whose
nonce and gas price are the supplied values — and it performs no RPC
call. -/
theorem create_transaction_contract (client : ChainClient) (nonce gas_price : Nat) :
    create_transaction client nonce gas_price =
      (.ok { toAddress := some client.address, value := some 0, nonce := some nonce,
             gas := some 21000, gasPrice := some gas_price }, []) :=
  rfl

/-- C9: `create_transaction` returns `Ok` for every input, so the
build-failure branch of the preparation loop is unreachable: for every
batch size `n` the prepared batch has exactly `n` items and the recorded
build-failure list is empty. -/
theorem create_never_fails (client : ChainClient) (s g n : Nat) :
    (∀ nonce gp, (create_transaction client nonce gp).1 =
        .ok (builtTx client.address nonce gp)) ∧
    (runBatch client s g n).1.failures = [] ∧
    (runBatch client s g n).1.items.length = n := by
  refine ⟨fun nonce gp => rfl, ?_, ?_⟩
  · simp [runBatch, prepareLoop, prepareFrom_create]
  · simp [runBatch, prepareLoop, prepareFrom_create]

/-- C7: with batch size 0 preparation yields an empty batch, dispatch
yields an empty outcome collection, and neither phase issues any RPC call
(both call traces are empty). -/
theorem empty_batch_no_calls (client : ChainClient) (s g : Nat) :
    runBatch client s g 0 =
      ({ items := [], failures := [], calls := [] },
       { outcomes := [], calls := [] }) :=
  rfl

/-- C5: the dispatch phase issues exactly one submission RPC call per
prepared item — the call trace is precisely one `submit` of each item's
intent, in order, so there is never zero and never more than one call per
item, no retries, and no confirmation or receipt calls of any kind. -/
theorem dispatch_one_submission_per_item (client : ChainClient)
    (prepared : List (Nat × Nat × TypedTransaction)) :
    (dispatchBatch client prepared).calls =
      (prepared.map fun p => RpcCall.submit p.2.2) ∧
    (dispatchBatch client prepared).calls.length = prepared.length := by
  rw [dispatchBatch_eq]
  exact ⟨rfl, List.length_map _ _⟩

/-- C6: each failed item's recorded outcome carries the client's reported
cause verbatim (the outcome results are exactly the client's responses to
the submitted intents), and the cause space distinguishes the three cases
node-rejected nonce, network/transport error and signer error. -/
theorem failure_cause_taxonomy (client : ChainClient)
    (prepared : List (Nat × Nat × TypedTransaction)) :
    ((dispatchBatch client prepared).outcomes.map fun o => o.2.2) =
      (prepared.map fun p => client.respond p.2.2) ∧
    (SubmissionError.NonceRejected ≠ SubmissionError.TransportError ∧
     SubmissionError.NonceRejected ≠ SubmissionError.SignerError ∧
     SubmissionError.TransportError ≠ SubmissionError.SignerError) := by
  refine ⟨?_, by decide, by decide, by decide⟩
  rw [dispatchBatch_eq, List.map_map]
  rfl

/-- C2: the dispatcher returns exactly one outcome per prepared item, with
the item's own `(index, nonce)` attribution (none lost, none duplicated);
and in the 3-item scenario where the submission with nonce 6 fails with
`NonceRejected` while 5 and 7 succeed, the final collection has exactly 3
entries, the nonce-6 entry carries the `NonceRejected` cause, and the
success count is 2. -/
theorem dispatch_outcomes_complete :
    (∀ (client : ChainClient) (prepared : List (Nat × Nat × TypedTransaction)),
      ((dispatchBatch client prepared).outcomes.map fun o => (o.1, o.2.1)) =
        (prepared.map fun p => (p.1, p.2.1)) ∧
      (dispatchBatch client prepared).outcomes.length = prepared.length) ∧
    ((runBatch scClient 5 30 3).2.outcomes =
      [(0, 5, .ok 1005), (1, 6, .err .NonceRejected), (2, 7, .ok 1007)] ∧
     (runBatch scClient 5 30 3).2.outcomes.length = 3 ∧
     (sentTxs (runBatch scClient 5 30 3).2.outcomes).length = 2) := by
  refine ⟨fun client prepared => ?_, rfl, rfl, rfl⟩
  rw [dispatchBatch_eq]
  exact ⟨by rw [List.map_map]; rfl, List.length_map _ _⟩

/-- C1: for every batch of size `n` starting at nonce `s` (no u64
overflow), every successfully built item with index `j` is assigned nonce
`s + j` — for any builder, so a failure at item `k` cannot change item
`k+1`'s nonce — and the nonces of the kept items are strictly increasing,
duplicate-free, and a subsequence of `[s, …, s+n-1]`. -/
theorem prepare_nonce_invariant
    (build : Nat → RsResult BuildError TypedTransaction × List RpcCall)
    (s n : Nat) (hov : s + n ≤ U64MOD) :
    (∀ j nc tx, (j, nc, tx) ∈ (prepareLoop build s n).items → j < n ∧ nc = s + j) ∧
    List.Sublist ((prepareLoop build s n).items.map fun p => p.2.1)
      ((List.range n).map fun j => s + j) ∧
    List.Pairwise (· < ·) ((prepareLoop build s n).items.map fun p => p.2.1) := by
  have hmaps : ((List.range' 0 n).map fun j => (s + j) % U64MOD) =
      (List.range n).map fun j => s + j := by
    rw [← List.range_eq_range']
    refine List.map_congr_left fun j hj => ?_
    exact Nat.mod_eq_of_lt
      (lt_of_lt_of_le (Nat.add_lt_add_left (List.mem_range.mp hj) s) hov)
  have hsub : List.Sublist ((prepareLoop build s n).items.map fun p => p.2.1)
      ((List.range n).map fun j => s + j) := by
    have h2 := (prepareFrom_pairs_sublist build s n 0).map Prod.snd
    rw [List.map_map, List.map_map] at h2
    rw [← hmaps]
    exact h2
  refine ⟨fun j nc tx h => ?_, hsub, ?_⟩
  · obtain ⟨-, h2, h3, -⟩ := mem_prepareFrom_items build s n 0 j nc tx h
    have hj : j < n := by omega
    refine ⟨hj, ?_⟩
    rw [h3]
    exact Nat.mod_eq_of_lt (lt_of_lt_of_le (Nat.add_lt_add_left hj s) hov)
  · have hp : List.Pairwise (· < ·) ((List.range n).map fun j => s + j) :=
      List.Pairwise.map _ (fun a b hab => Nat.add_lt_add_left hab s)
        (List.pairwise_lt_range n)
    exact hp.sublist hsub

/-- Witness for C1: batch of size 3 at starting nonce 5 with a builder
failing at nonce 6 — the kept items get nonces 5 and 7 (never 6), strictly
increasing within `[5, 7]`. -/
theorem prepare_nonce_invariant_check :
    5 + 3 ≤ U64MOD ∧
    ((∀ j nc tx, (j, nc, tx) ∈ (prepareLoop witBuild 5 3).items → j < 3 ∧ nc = 5 + j) ∧
     List.Sublist ((prepareLoop witBuild 5 3).items.map fun p => p.2.1)
       ((List.range 3).map fun j => 5 + j) ∧
     List.Pairwise (· < ·) ((prepareLoop witBuild 5 3).items.map fun p => p.2.1)) :=
  ⟨by norm_num [U64MOD], prepare_nonce_invariant witBuild 5 3 (by norm_num [U64MOD])⟩

/-- C4: the batch gas price is frozen once as 3× the baseline observed at
batch start (no overflow assumed) and appears unchanged in every intent of
the batch; and with `startingNonce = 5`, `batchSize = 3`, baseline 30, the
intents have nonces `[5, 6, 7]`, each with value 0, gas limit 21000 and
gas price 90. -/
theorem gas_price_frozen (client : ChainClient) (s g n : Nat)
    (hg : g * 3 < U256MOD) :
    ((runBatch client s g n).1.items.map fun p => p.2.2.gasPrice) =
      List.replicate n (some (g * 3)) ∧
    ((runBatch client 5 30 3).1.items.map
        fun p => (p.2.1, p.2.2.value, p.2.2.gas, p.2.2.gasPrice)) =
      [(5, some 0, some 21000, some 90), (6, some 0, some 21000, some 90),
       (7, some 0, some 21000, some 90)] := by
  constructor
  · have hmod : (g * 3) % U256MOD = g * 3 := Nat.mod_eq_of_lt hg
    simp [runBatch, prepareLoop, prepareFrom_create, builtTx, List.map_map, hmod,
      Function.comp_def, List.map_const', List.length_range']
  · have hr : List.range' 0 3 = [0, 1, 2] := rfl
    simp [runBatch, prepareLoop, prepareFrom_create, builtTx, hr, U64MOD, U256MOD]

/-- Witness for C4: instantiated at a concrete client with baseline gas
price 30 and batch `[5, 6, 7]`. -/
theorem gas_price_frozen_check :
    30 * 3 < U256MOD ∧
    (((runBatch okClient 5 30 3).1.items.map fun p => p.2.2.gasPrice) =
      List.replicate 3 (some (30 * 3)) ∧
     ((runBatch okClient 5 30 3).1.items.map
        fun p => (p.2.1, p.2.2.value, p.2.2.gas, p.2.2.gasPrice)) =
      [(5, some 0, some 21000, some 90), (6, some 0, some 21000, some 90),
       (7, some 0, some 21000, some 90)]) :=
  ⟨by norm_num [U256MOD], gas_price_frozen okClient 5 30 3 (by norm_num [U256MOD])⟩

/-- C8: preparation is deterministic in its observed inputs — two runs
with the same signer address, starting nonce, count and gas price yield
identical prepared batches, whatever else (such as the node's submission
behaviour) differs between the two clients. -/
theorem prepare_idempotent (c₁ c₂ : ChainClient) (s₁ s₂ n₁ n₂ g₁ g₂ : Nat)
    (ha : c₁.address = c₂.address) (hs : s₁ = s₂) (hn : n₁ = n₂) (hg : g₁ = g₂) :
    prepareLoop (fun nonce => create_transaction c₁ nonce g₁) s₁ n₁ =
      prepareLoop (fun nonce => create_transaction c₂ nonce g₂) s₂ n₂ := by
  subst hs hn hg
  simp only [prepareLoop, prepareFrom_create, ha]

/-- Witness for C8: two clients with the same address but different
network behaviour prepare the identical batch of 2 items at starting
nonce 7 with gas price 90. -/
theorem prepare_idempotent_check :
    okClient.address = okClientB.address ∧ (7 : Nat) = 7 ∧ (2 : Nat) = 2 ∧
    (90 : Nat) = 90 ∧
    prepareLoop (fun nonce => create_transaction okClient nonce 90) 7 2 =
      prepareLoop (fun nonce => create_transaction okClientB nonce 90) 7 2 :=
  ⟨rfl, rfl, rfl, rfl,
   prepare_idempotent okClient okClientB 7 7 2 2 90 90 rfl rfl rfl rfl⟩

/-- C10: the joined outcome collection is already ordered by sequence
index ascending — its `(index, nonce)` pairs are exactly the full schedule
`[(0, s), …, (n-1, s+n-1)]` (mod `2^64`), coincide position by position
with the prepared items' pairs, and the indices are strictly increasing —
so no re-sorting is needed for correct attribution. -/
theorem outcomes_sorted_by_index (client : ChainClient) (s g n : Nat) :
    ((runBatch client s g n).2.outcomes.map fun o => (o.1, o.2.1)) =
      ((List.range n).map fun j => (j, (s + j) % U64MOD)) ∧
    ((runBatch client s g n).2.outcomes.map fun o => (o.1, o.2.1)) =
      ((runBatch client s g n).1.items.map fun p => (p.1, p.2.1)) ∧
    List.Pairwise (· < ·) ((runBatch client s g n).2.outcomes.map fun o => o.1) := by
  have h1 : (runBatch client s g n).2.outcomes =
      (List.range' 0 n).map fun j =>
        (j, (s + j) % U64MOD,
          client.respond (builtTx client.address ((s + j) % U64MOD) ((g * 3) % U256MOD))) := by
    simp [runBatch, prepareLoop, prepareFrom_create, dispatchBatch_eq, List.map_map]
  have h2 : (runBatch client s g n).1.items =
      (List.range' 0 n).map fun j =>
        (j, (s + j) % U64MOD, builtTx client.address ((s + j) % U64MOD) ((g * 3) % U256MOD)) := by
    simp [runBatch, prepareLoop, prepareFrom_create]
  refine ⟨?_, ?_, ?_⟩
  · rw [h1, List.map_map, List.range_eq_range']
    rfl
  · rw [h1, h2, List.map_map, List.map_map]
    rfl
  · rw [h1, List.map_map]
    have : ((List.range' 0 n).map
        ((fun o => o.1) ∘ fun j =>
          (j, (s + j) % U64MOD,
            client.respond (builtTx client.address ((s + j) % U64MOD) ((g * 3) % U256MOD))))) =
        List.range' 0 n := List.map_id' _
    rw [this, ← List.range_eq_range']
    exact List.pairwise_lt_range n

end Web3Dump
